import Mathlib

/-!
Verification development for `parser_spec.py`, a PDF table-of-contents /
section-text extraction pipeline.

The Python source is shallowly embedded: each class method becomes a Lean
function over explicit data.  A PDF document is modelled by its observable
interface (per-page plain text, page count, outline/bookmark triples), which
is exactly what the source reads through `fitz`.  Python `int` is modelled by
`Int` (`Nat` where the value is structurally a count), Python strings by
`String`, `None`-able fields by `Option`, and exceptions by `Except`.

Python's `set` iteration order is unspecified; wherever the source iterates a
set (the two table-inventory functions), the model takes an explicit
reordering parameter `pi : List String → List String` standing for the
iteration order, so that order-(in)dependence can be stated and proved.
-/

namespace PdfParser

/-! ### Character and string utilities (models of Python `str` primitives)

The source operates on text via `re` and `str` methods.  The models below
implement the ASCII fragment of Python's semantics; the source's patterns are
applied with Unicode semantics, which coincide on the ASCII inputs this
development evaluates. -/

/-- Model of Python's regex class `\s` (ASCII fragment). -/
def pyIsSpace (c : Char) : Bool :=
  c == ' ' || c == '\t' || c == '\n' || c == '\r' || c == '\x0b' || c == '\x0c'

/-- Model of Python's regex class `\w` (ASCII fragment): letters, digits, underscore. -/
def pyIsWord (c : Char) : Bool :=
  c.isAlphanum || c == '_'

/-- `[A-Z]` under `re.IGNORECASE`: any ASCII letter. -/
def pyIsAsciiLetter (c : Char) : Bool :=
  (decide ('A' ≤ c) && decide (c ≤ 'Z')) || (decide ('a' ≤ c) && decide (c ≤ 'z'))

/-- The dash characters of the source's table patterns: `[-‒–—―]`. -/
def pyIsTableDash (c : Char) : Bool :=
  c == '-' || c == '‒' || c == '–' || c == '—' || c == '―'

/-- Model of Python `str.strip()` (ASCII whitespace fragment). -/
def pyStrip (s : String) : String :=
  String.mk (((s.data.dropWhile pyIsSpace).reverse.dropWhile pyIsSpace).reverse)

/-- Model of Python `str.lower()` (ASCII fragment), the sort key `key=str.lower`. -/
def pyLower (s : String) : String :=
  String.mk (s.data.map Char.toLower)

/-- Length of the maximal prefix of `l` whose characters satisfy `p`. -/
def runLen (p : Char → Bool) (l : List Char) : Nat :=
  (l.takeWhile p).length

/-- Digits of a decimal numeral to a `Nat` (model of Python `int(...)` on a `\d+` match). -/
def digitsToNat (l : List Char) : Nat :=
  l.foldl (fun acc c => acc * 10 + (c.toNat - '0'.toNat)) 0

/-- Ascending range of naturals `[a, a+1, …, b]` (empty if `b < a`). -/
def rangeAsc (a b : Nat) : List Nat :=
  (List.range (b + 1 - a)).map (fun k => a + k)

/-- Descending range of naturals `[b, b-1, …, a]` (empty if `b < a`). -/
def rangeDesc (a b : Nat) : List Nat :=
  (rangeAsc a b).reverse

/-- The integers `a, a+1, …, a+n-1` (model of Python `range` with known length). -/
def intList (a : Int) (n : Nat) : List Int :=
  (List.range n).map (fun k => a + k)

/-- `True` iff `s` contains a `'.'` (Python `"." in s`). -/
def hasDot (s : String) : Bool :=
  s.data.contains '.'

/-- Number of `'.'` characters in `s` (Python `s.count(".")`). -/
def countDots (s : String) : Nat :=
  (s.data.filter (· == '.')).length

/-- Python `s.rsplit(".", 1)[0]`: everything before the last dot
(the whole string if there is no dot). -/
def stripLastComponent (s : String) : String :=
  if hasDot s then
    String.mk (((s.data.reverse.dropWhile (· != '.')).drop 1).reverse)
  else s

/-- Python `f"{n:03d}"` for a nonnegative counter. -/
def pad3 (n : Nat) : String :=
  if n < 10 then "00" ++ toString n
  else if n < 100 then "0" ++ toString n
  else toString n

/-! ### Executable models of the source's regular expressions

Each pattern of the source is implemented as an ordered backtracking search
specialised to that pattern: greedy subpatterns try the longest extent first,
lazy subpatterns the shortest, alternatives left to right; the first complete
success wins, exactly as in Python's `re`. -/

/-- Candidate match lengths of the leading-id pattern `\d+(?:\.\d+)*` at the
head of `cs`, in regex backtracking priority order, with `base` characters
already consumed.  Greedy: the full extent first; backtracking shortens the
last `\.\d+` group's digits, then drops the group.  Each step of the star
consumes at least two characters, so `fuel := length + 1` never runs out;
the fuel makes the recursion structural. -/
def idChain (fuel : Nat) (base : Nat) (cs : List Char) : List Nat :=
  match fuel, cs with
  | _, [] => [base]
  | 0, _ => [base]
  | f + 1, c :: rest =>
    if c = '.' then
      let g := runLen Char.isDigit rest
      if g = 0 then [base]
      else
        idChain f (base + 1 + g) (rest.drop g)
          ++ (rangeDesc 1 (g - 1)).map (fun j => base + 1 + j) ++ [base]
    else [base]

/-- All candidate match lengths of `\d+(?:\.\d+)*` at the head of `cs`,
longest first (regex priority).  Empty when no digit leads. -/
def idCandidates (cs : List Char) : List Nat :=
  let d0 := runLen Char.isDigit cs
  if d0 = 0 then []
  else idChain (cs.length + 1) d0 (cs.drop d0) ++ rangeDesc 1 (d0 - 1)

/-- `$` without `re.MULTILINE`: end of text, or just before a final newline. -/
def atAnchoredEnd (cs : List Char) : Bool :=
  match cs with
  | [] => true
  | ['\n'] => true
  | _ => false

/-- `BookmarkTOCStrategy._secid_from_title`:
`^(?P<id>\d+(?:\.\d+)*)\s+(?P<title>.+?)\s*$` applied via `.match` (anchored
at the start of the already-stripped title).  Returns the two groups.
Search order: id longest first, `\s+` greedy, title `.+?` lazy, `\s*` greedy. -/
def secidFromTitle (s : String) : Option (String × String) :=
  let cs := s.data
  (idCandidates cs).findSome? fun idLen =>
    let rest1 := cs.drop idLen
    (rangeDesc 1 (runLen pyIsSpace rest1)).findSome? fun w =>
      let rest2 := rest1.drop w
      (rangeAsc 1 (runLen (· != '\n') rest2)).findSome? fun k =>
        let rest3 := rest2.drop k
        (rangeDesc 0 (runLen pyIsSpace rest3)).findSome? fun t =>
          if atAnchoredEnd (rest3.drop t) then
            some (String.mk (cs.take idLen), String.mk (rest2.take k))
          else none

/-- `$` with `re.MULTILINE`: end of text or just before any newline. -/
def atMultilineEnd (cs : List Char) : Bool :=
  match cs with
  | [] => true
  | c :: _ => c == '\n'

/-- Candidate consumed lengths of the optional dot-leader group
`(?:\.{3,}|\s\.+\s*)?` at the head of `cs`, in priority order: first
alternative (greedy), second alternative (each quantifier greedy), then the
empty option. -/
def optLens (cs : List Char) : List Nat :=
  let dr := runLen (· == '.') cs
  let altA := if 3 ≤ dr then rangeDesc 3 dr else []
  let altB :=
    match cs with
    | c :: rest =>
      if pyIsSpace c then
        (rangeDesc 1 (runLen (· == '.') rest)).flatMap fun d =>
          (rangeDesc 0 (runLen pyIsSpace (rest.drop d))).map fun w2 => 1 + d + w2
      else []
    | [] => []
  altA ++ altB ++ [0]

/-- One attempted match of `RegexTOCStrategy.pattern`
`^(?P<id>\d+(?:\.\d+)*)\s+(?P<title>[^\n\.]+?)\s(?:\.{3,}|\s\.+\s*)?(?P<page>\d+)\s*$`
(compiled with `re.MULTILINE`) at the head of `cs`, which the caller
guarantees is at a line start.  Returns `(id, title, page, consumed)`. -/
def tryTocLine (cs : List Char) : Option (String × String × Nat × Nat) :=
  (idCandidates cs).findSome? fun idLen =>
    let rest1 := cs.drop idLen
    (rangeDesc 1 (runLen pyIsSpace rest1)).findSome? fun w =>
      let rest2 := rest1.drop w
      (rangeAsc 1 (runLen (fun c => c != '\n' && c != '.') rest2)).findSome? fun k =>
        match rest2.drop k with
        | [] => none
        | c :: rest4 =>
          if pyIsSpace c then
            (optLens rest4).findSome? fun oLen =>
              let rest5 := rest4.drop oLen
              (rangeDesc 1 (runLen Char.isDigit rest5)).findSome? fun dg =>
                let rest6 := rest5.drop dg
                (rangeDesc 0 (runLen pyIsSpace rest6)).findSome? fun t =>
                  if atMultilineEnd (rest6.drop t) then
                    some (String.mk (cs.take idLen), String.mk (rest2.take k),
                      digitsToNat (rest5.take dg), idLen + w + k + 1 + oLen + dg + t)
                  else none
          else none

/-- `finditer` of the ToC pattern over the whole text: left-to-right scan;
`^` (MULTILINE) admits a match only at position 0 or right after a newline;
after a match, scanning resumes at its end.  Every match consumes at least
one character, so `fuel := length + 1` never runs out. -/
def tocScan : Nat → Bool → List Char → List (String × String × Nat)
  | 0, _, _ => []
  | _ + 1, _, [] => []
  | fuel + 1, atLineStart, c :: cs =>
    if atLineStart then
      match tryTocLine (c :: cs) with
      | some (sid, title, page, consumed) =>
        let nextStart :=
          match ((c :: cs).take consumed).getLast? with
          | some '\n' => true
          | _ => false
        (sid, title, page) :: tocScan fuel nextStart ((c :: cs).drop consumed)
      | none => tocScan fuel (c == '\n') cs
    else tocScan fuel (c == '\n') cs

/-- All `(id, title, page)` matches of the ToC pattern in `text`. -/
def tocMatches (text : String) : List (String × String × Nat) :=
  tocScan (text.data.length + 1) true text.data

/-- Case-insensitive match of a lowercase literal at the head of the text;
returns the rest on success. -/
def ciMatchAt : List Char → List Char → Option (List Char)
  | [], rest => some rest
  | _ :: _, [] => none
  | p :: ps, c :: cs => if c.toLower == p then ciMatchAt ps cs else none

/-- `\b` before a match starting with a word character: start of text or a
non-word character just before. -/
def boundaryBefore (prev : Option Char) : Bool :=
  match prev with
  | none => true
  | some p => !(pyIsWord p)

/-- `\b` after a match ending with a word character: end of text or a
non-word character next. -/
def boundaryAfter (rest : List Char) : Bool :=
  match rest with
  | [] => true
  | c :: _ => !(pyIsWord c)

/-- `re.search(r"\bList of Tables\b", txt, flags=re.I)` as a Boolean. -/
def searchListOfTablesAux : Option Char → List Char → Bool
  | _, [] => false
  | prev, c :: cs =>
    (boundaryBefore prev &&
      (match ciMatchAt "list of tables".data (c :: cs) with
       | some rest => boundaryAfter rest
       | none => false))
    || searchListOfTablesAux (some c) cs

/-- Whether a page's text mentions a `List of Tables` heading. -/
def hasListOfTables (s : String) : Bool :=
  searchListOfTablesAux none s.data

/-- `re.search(r"\b(Table of Contents|Contents)\b", txt, flags=re.I)` as a
Boolean (for a Boolean search only existence of a match matters). -/
def searchContentsAux : Option Char → List Char → Bool
  | _, [] => false
  | prev, c :: cs =>
    (boundaryBefore prev &&
      ((match ciMatchAt "table of contents".data (c :: cs) with
        | some rest => boundaryAfter rest
        | none => false)
       ||
       (match ciMatchAt "contents".data (c :: cs) with
        | some rest => boundaryAfter rest
        | none => false)))
    || searchContentsAux (some c) cs

/-- Whether a page's text mentions a table-of-contents heading. -/
def hasContentsHeading (s : String) : Bool :=
  searchContentsAux none s.data

/-- The shared core of both table-reference patterns, after `Table` has been
matched: `\s+[A-Z]?\d+(?:[-‒–—―]\d+)?` (with `re.IGNORECASE`).  Returns the
number of characters consumed.  For this pattern the greedy choices are the
only viable ones: nothing after `\s+` matches whitespace, the optional letter
can stand only when a digit follows, and `\d+` is final in its branch. -/
def tryTableCore (cs : List Char) : Option Nat :=
  let w := runLen pyIsSpace cs
  if w = 0 then none
  else
    let rest2 := cs.drop w
    let core :=
      match rest2 with
      | [] => none
      | a :: rest3 =>
        if pyIsAsciiLetter a then
          match rest3 with
          | b :: _ => if b.isDigit then some (1 + runLen Char.isDigit rest3) else none
          | [] => none
        else if a.isDigit then some (runLen Char.isDigit rest2)
        else none
    match core with
    | none => none
    | some n =>
      let rest4 := rest2.drop n
      let dashLen :=
        match rest4 with
        | d :: rest5 =>
          if pyIsTableDash d && 1 ≤ runLen Char.isDigit rest5 then
            1 + runLen Char.isDigit rest5
          else 0
        | [] => 0
      some (w + n + dashLen)

/-- One attempted match of the List-of-Tables pattern
`(Table\s+[A-Z]?\d+(?:[-‒–—―]\d+)?)` (`re.I`) at the head of `cs`. -/
def tryTable1 (cs : List Char) : Option (String × Nat) :=
  match ciMatchAt "table".data cs with
  | none => none
  | some r1 =>
    match tryTableCore r1 with
    | none => none
    | some n => some (String.mk (cs.take (5 + n)), 5 + n)

/-- `re.findall` of the List-of-Tables pattern: non-overlapping leftmost
matches, scanning left to right. -/
def listOfTablesMatches : Nat → List Char → List String
  | 0, _ => []
  | _ + 1, [] => []
  | fuel + 1, c :: cs =>
    match tryTable1 (c :: cs) with
    | some (m, consumed) => m :: listOfTablesMatches fuel ((c :: cs).drop consumed)
    | none => listOfTablesMatches fuel cs

/-- The trailing class `[A-Za-z0-9\-]` of `BODY_TABLE_RE`. -/
def pyIsTailAlnumDash (c : Char) : Bool :=
  pyIsAsciiLetter c || c.isDigit || c == '-'

/-- One attempted match of `TableParser.BODY_TABLE_RE`
`\bTable\s+[A-Z]?\d+(?:[-‒–—―]\d+)?[A-Za-z0-9\-]*` (`re.IGNORECASE`) at the
head of `cs`, with `prev` the character just before the current position. -/
def tryTable2 (prev : Option Char) (cs : List Char) : Option (String × Nat) :=
  if boundaryBefore prev then
    match ciMatchAt "table".data cs with
    | none => none
    | some r1 =>
      match tryTableCore r1 with
      | none => none
      | some n =>
        let tl := runLen pyIsTailAlnumDash (cs.drop (5 + n))
        some (String.mk (cs.take (5 + n + tl)), 5 + n + tl)
  else none

/-- `finditer` of `BODY_TABLE_RE`: non-overlapping leftmost matches; the
previous character is threaded through for the `\b` assertion. -/
def bodyTableMatches : Nat → Option Char → List Char → List String
  | 0, _, _ => []
  | _ + 1, _, [] => []
  | fuel + 1, prev, c :: cs =>
    match tryTable2 prev (c :: cs) with
    | some (m, consumed) =>
      m :: bodyTableMatches fuel (((c :: cs).take consumed).getLast?) ((c :: cs).drop consumed)
    | none => bodyTableMatches fuel (some c) cs

/-! ### Data model: the `Section` dataclass -/

/-- The `Section` dataclass of the source, field for field.
`page_start_1idx` and `level` are Python ints (`Int`); optional fields are
`Option`; `text` defaults to `None`. -/
structure Section where
  doc_title : String
  section_id : String
  title : String
  page_start_1idx : Int
  level : Int
  parent_id : Option String
  full_path : String
  tags : List String
  text : Option String := none
deriving DecidableEq

/-- A `Section` with its `text` field cleared: the part of a section left
untouched by boundary resolution. -/
def eraseText (s : Section) : Section :=
  { s with text := none }

/-! ### The PDF document model (`PDFLoader` over `fitz`)

A document is its list of page texts plus its outline: exactly the interface
the source consumes (`page_text`, `get_text`, `page_count`, `get_toc`). -/

/-- Observable content of an open PDF: per-page extracted text and the
bookmark outline as `(level, title, page)` triples, as returned by
`fitz` `get_toc(simple=True)`. -/
structure PDFLoader where
  pages : List String
  outline : List (Int × String × Int)
deriving DecidableEq

namespace PDFLoader

/-- `doc[p].get_text("text")` for a (possibly negative, Python-style) index.
Out-of-range access raises `IndexError` in the source; it is modelled as
empty text and is never reached by any theorem below. -/
def page_text (pdf : PDFLoader) (i : Int) : String :=
  if 0 ≤ i ∧ i < (pdf.pages.length : Int) then pdf.pages.getD i.toNat ""
  else if -(pdf.pages.length : Int) ≤ i ∧ i < 0 then
    pdf.pages.getD (pdf.pages.length - (-i).toNat) ""
  else ""

/-- `"".join(self.doc[p].get_text("text") for p in pages_0idx)`. -/
def get_text (pdf : PDFLoader) (pages_0idx : List Int) : String :=
  String.join (pages_0idx.map pdf.page_text)

/-- `len(self.doc)`. -/
def page_count (pdf : PDFLoader) : Int :=
  (pdf.pages.length : Int)

end PDFLoader

/-! ### Sorting by `page_start` (model of Python's stable `sorted`) -/

/-- The sort key relation of `sorted(sections, key=lambda s: s.page_start_1idx)`. -/
def pageLE (a b : Section) : Prop :=
  a.page_start_1idx ≤ b.page_start_1idx

/-- Strict version of `pageLE`, used to state disjointness of resolved ranges. -/
def pageLT (a b : Section) : Prop :=
  a.page_start_1idx < b.page_start_1idx

instance : DecidableRel pageLE := fun a b =>
  inferInstanceAs (Decidable (a.page_start_1idx ≤ b.page_start_1idx))

instance : DecidableRel pageLT := fun a b =>
  inferInstanceAs (Decidable (a.page_start_1idx < b.page_start_1idx))

instance : IsTotal Section pageLE :=
  ⟨fun a b => Int.le_total a.page_start_1idx b.page_start_1idx⟩

instance : IsTrans Section pageLE :=
  ⟨fun _ _ _ h1 h2 => le_trans h1 h2⟩

/-- Python `sorted(sections, key=lambda s: s.page_start_1idx)`: a stable sort
by starting page.  Python's Timsort and insertion sort compute the same list,
the unique stable-by-key sorted permutation. -/
def sortedByPage (l : List Section) : List Section :=
  l.insertionSort pageLE

/-! ### `SpecParser.extract_sections_text`: boundary resolution -/

namespace SpecParser

/-- The `ranges` list built by `extract_sections_text`'s first loop, on an
already sorted section list: each section gets `(start, max start end)` where
`end` is the next section's start page minus one, or the document's last page
for the final section. -/
def ranges : List Section → Int → List (Int × Int)
  | [], _ => []
  | [s], last_page => [(s.page_start_1idx, max s.page_start_1idx last_page)]
  | s :: t :: rest, last_page =>
    (s.page_start_1idx, max s.page_start_1idx (t.page_start_1idx - 1))
      :: ranges (t :: rest) last_page

/-- `list(range(start - 1, end))`: the 0-indexed pages of a resolved range. -/
def pageIndices (start stop : Int) : List Int :=
  intList (start - 1) (stop - start + 1).toNat

/-- `SpecParser.extract_sections_text`: sort by `page_start`, compute ranges,
and write each section's `text` as the stripped concatenation of its pages'
text.  In the source the sections are mutated in place and the sorted list is
returned; the model returns the updated sorted list. -/
def extract_sections_text (pdf : PDFLoader) (sections : List Section) : List Section :=
  if sections.isEmpty then sections
  else
    let sections_sorted := sortedByPage sections
    let rs := ranges sections_sorted pdf.page_count
    (sections_sorted.zip rs).map
      (fun p => { p.1 with text := some (pyStrip (pdf.get_text (pageIndices p.2.1 p.2.2))) })

end SpecParser

/-! ### TOC strategies -/

namespace BookmarkTOCStrategy

/-- The `fill missing ids` loop of `BookmarkTOCStrategy.read`: every section
whose `section_id` is empty receives `L{level}-{seq:03d}` from a per-level
counter (`counters` dict, modelled as a function) and loses any parent. -/
def fillMissing : (Int → Nat) → List Section → List Section
  | _, [] => []
  | counters, s :: rest =>
    if s.section_id ≠ "" then s :: fillMissing counters rest
    else
      let n := counters s.level + 1
      { s with section_id := "L" ++ toString s.level ++ "-" ++ pad3 n, parent_id := none }
        :: fillMissing (fun l => if l = s.level then n else counters l) rest

/-- Construction of one `Section` from an outline `(level, title, page)`
triple: the first loop of `BookmarkTOCStrategy.read`. -/
def parseEntry (doc_title : String) (e : Int × String × Int) : Section :=
  let title := pyStrip e.2.1
  match secidFromTitle title with
  | some (sec_id, raw_title) =>
    let sec_title := pyStrip raw_title
    { doc_title := doc_title
      section_id := sec_id
      title := sec_title
      page_start_1idx := (e.2.2 : Int)
      level := e.1
      parent_id :=
        if sec_id ≠ "" ∧ hasDot sec_id then some (stripLastComponent sec_id) else none
      full_path := pyStrip (sec_id ++ " " ++ sec_title)
      tags := [] }
  | none =>
    { doc_title := doc_title
      section_id := ""
      title := title
      page_start_1idx := (e.2.2 : Int)
      level := e.1
      parent_id := none
      full_path := pyStrip ("" ++ " " ++ title)
      tags := [] }

/-- `BookmarkTOCStrategy.read`: sections from the outline triples, then the
missing-id fill. -/
def read (pdf : PDFLoader) (doc_title : String) : List Section :=
  if pdf.outline.isEmpty then []
  else fillMissing (fun _ => 0) (pdf.outline.map (parseEntry doc_title))

end BookmarkTOCStrategy

namespace RegexTOCStrategy

/-- `RegexTOCStrategy._guess_toc_pages`: scan the first 40 pages for a
contents heading; on a first hit at page `h`, the window from `max(h-1, 0)`
to `min(h+8, page_count-1)`; with no hit, the first `min(10, page_count)`
pages. -/
def guess_toc_pages (pdf : PDFLoader) : List Int :=
  match (List.range (min 40 pdf.pages.length)).find?
      (fun i => hasContentsHeading (pdf.page_text (Int.ofNat i))) with
  | some h => (rangeAsc (h - 1) (min (h + 8) (pdf.pages.length - 1))).map Int.ofNat
  | none => (List.range (min 10 pdf.pages.length)).map Int.ofNat

/-- Construction of one `Section` from a ToC line match: the loop of
`RegexTOCStrategy.read`. -/
def buildSection (doc_title : String) (m : String × String × Nat) : Section :=
  let sec_id := pyStrip m.1
  let title := pyStrip m.2.1
  { doc_title := doc_title
    section_id := sec_id
    title := title
    page_start_1idx := (m.2.2 : Int)
    level := (countDots sec_id : Int) + 1
    parent_id := if hasDot sec_id then some (stripLastComponent sec_id) else none
    full_path := sec_id ++ " " ++ title
    tags := [] }

/-- `RegexTOCStrategy.read` with the constructor's `toc_pages_hint`: a
truthy (non-`None`, non-empty) hint overrides page guessing. -/
def read (hint : Option (List Int)) (pdf : PDFLoader) (doc_title : String) : List Section :=
  let pages :=
    match hint with
    | some l => if l.isEmpty then guess_toc_pages pdf else l
    | none => guess_toc_pages pdf
  (tocMatches (pdf.get_text pages)).map (buildSection doc_title)

end RegexTOCStrategy

namespace TOCReader

/-- `TOCReader.read`: the two strategies in fixed priority order; the first
non-empty result wins, with no merging. -/
def read (hint : Option (List Int)) (pdf : PDFLoader) (doc_title : String) : List Section :=
  let b := BookmarkTOCStrategy.read pdf doc_title
  if !b.isEmpty then b
  else
    let r := RegexTOCStrategy.read hint pdf doc_title
    if !r.isEmpty then r
    else []

end TOCReader

/-! ### String comparison (Python's `<` on `str`)

Python compares strings lexicographically by code points; `sorted` on
strings is the stable sort under that order.  The executable comparison
below implements it directly over the character lists. -/

/-- Lexicographic (code-point) string comparison: Python's `s1 <= s2`. -/
def lexLeB : List Char → List Char → Bool
  | [], _ => true
  | _ :: _, [] => false
  | a :: as, b :: bs => if a < b then true else if a = b then lexLeB as bs else false

theorem lexLeB_total : ∀ as bs : List Char, lexLeB as bs = true ∨ lexLeB bs as = true
  | [], _ => Or.inl rfl
  | _ :: _, [] => Or.inr rfl
  | a :: as, b :: bs => by
    rcases lt_trichotomy a b with h | h | h
    · left
      simp [lexLeB, h]
    · subst h
      rcases lexLeB_total as bs with h2 | h2
      · left
        simp [lexLeB, h2]
      · right
        simp [lexLeB, h2]
    · right
      simp [lexLeB, h]

theorem lexLeB_trans : ∀ as bs cs : List Char,
    lexLeB as bs = true → lexLeB bs cs = true → lexLeB as cs = true
  | [], _, _, _, _ => rfl
  | a :: as, [], _, h1, _ => by simp [lexLeB] at h1
  | a :: as, b :: bs, [], _, h2 => by simp [lexLeB] at h2
  | a :: as, b :: bs, c :: cs, h1, h2 => by
    simp only [lexLeB] at h1 h2 ⊢
    rcases lt_trichotomy a b with hab | hab | hab
    · rcases lt_trichotomy b c with hbc | hbc | hbc
      · simp [lt_trans hab hbc]
      · subst hbc
        simp [hab]
      · rw [if_neg (not_lt.mpr (le_of_lt hbc)),
          if_neg (fun he => absurd he.symm (ne_of_lt hbc))] at h2
        exact absurd h2 (by simp)
    · subst hab
      rcases lt_trichotomy a c with hbc | hbc | hbc
      · simp [hbc]
      · subst hbc
        rw [if_neg (lt_irrefl a), if_pos rfl] at h1 h2 ⊢
        exact lexLeB_trans as bs cs h1 h2
      · rw [if_neg (not_lt.mpr (le_of_lt hbc)),
          if_neg (fun he => absurd he.symm (ne_of_lt hbc))] at h2
        exact absurd h2 (by simp)
    · rw [if_neg (not_lt.mpr (le_of_lt hab)),
        if_neg (fun he => absurd he.symm (ne_of_lt hab))] at h1
      exact absurd h1 (by simp)

/-- Python's `s1 <= s2` on strings, as used by `sorted` on the
symmetric-difference columns. -/
def strLE (a b : String) : Prop :=
  lexLeB a.data b.data = true

instance : DecidableRel strLE := fun a b =>
  inferInstanceAs (Decidable (lexLeB a.data b.data = true))

instance : IsTotal String strLE :=
  ⟨fun a b => lexLeB_total a.data b.data⟩

instance : IsTrans String strLE :=
  ⟨fun a b c h1 h2 => lexLeB_trans a.data b.data c.data h1 h2⟩

/-! ### Table inventories -/

/-- The comparison behind `sorted(..., key=str.lower)`. -/
def lowerLE (a b : String) : Prop :=
  lexLeB (pyLower a).data (pyLower b).data = true

instance : DecidableRel lowerLE := fun a b =>
  inferInstanceAs (Decidable (lexLeB (pyLower a).data (pyLower b).data = true))

instance : IsTotal String lowerLE :=
  ⟨fun a b => lexLeB_total (pyLower a).data (pyLower b).data⟩

instance : IsTrans String lowerLE :=
  ⟨fun a b c h1 h2 => lexLeB_trans (pyLower a).data (pyLower b).data (pyLower c).data h1 h2⟩

namespace TableParser

/-- The page window of `list_from_list_of_tables`: from the first page among
the first 50 bearing a `List of Tables` heading, `min(i+6, page_count) - i`
pages; empty when no heading is found. -/
def heading_pages (pdf : PDFLoader) : List Int :=
  match (List.range (min 50 pdf.pages.length)).find?
      (fun i => hasListOfTables (pdf.page_text (Int.ofNat i))) with
  | some i => (rangeAsc i (min (i + 6) pdf.pages.length - 1)).map Int.ofNat
  | none => []

/-- `TableParser.list_from_list_of_tables`:
`sorted(set(x.strip() for x in items), key=str.lower)`.  `pi` models the
unspecified iteration order of the Python set handed to `sorted`; the sort
by lowercase key is stable in that order. -/
def list_from_list_of_tables (pi : List String → List String) (pdf : PDFLoader) : List String :=
  let pages := heading_pages pdf
  if pages.isEmpty then []
  else
    let text := pdf.get_text pages
    let items := listOfTablesMatches (text.data.length + 1) text.data
    (pi ((items.map pyStrip).dedup)).insertionSort lowerLE

/-- `TableParser.count_in_body`: union of the stripped `BODY_TABLE_RE`
matches over every section's text (`None` and empty text skipped), sorted by
lowercase key in the set iteration order `pi`. -/
def count_in_body (pi : List String → List String) (sections : List Section) : List String :=
  let found :=
    (sections.map fun s =>
      match s.text with
      | none => []
      | some t =>
        if t = "" then []
        else (bodyTableMatches (t.data.length + 1) none t.data).map pyStrip).flatten
  (pi found.dedup).insertionSort lowerLE

end TableParser

/-! ### Reporting -/

/-- The observable content of the two-sheet validation report. -/
structure Report where
  total_toc : Nat
  total_parsed : Nat
  ids_match : String
  total_toc_tables : Nat
  total_body_tables : Nat
  mismatches : List (String × String)
deriving DecidableEq

namespace ReportGenerator

/-- `ReportGenerator.generate`.  The Mismatches sheet is
`pd.DataFrame({"In ToC not Parsed": colA, "Parsed not in ToC": colB})`;
pandas raises `ValueError("All arrays must be of the same length")` when the
two columns differ in length, modelled by the `Except.error` branch (nothing
is written in that case).  Sorting a set of distinct strings yields the same
list under every iteration order, so no order parameter is needed here. -/
def generate (toc spec : List Section) (toc_tables body_tables : List String) :
    Except String Report :=
  let toc_ids := toc.map (·.section_id)
  let spec_ids := spec.map (·.section_id)
  let colA := (toc_ids.dedup.filter (fun x => !(spec_ids.contains x))).insertionSort strLE
  let colB := (spec_ids.dedup.filter (fun x => !(toc_ids.contains x))).insertionSort strLE
  if colA.length = colB.length then
    Except.ok
      { total_toc := toc.length
        total_parsed := spec.length
        ids_match := if toc_ids.toFinset = spec_ids.toFinset then "Yes" else "No"
        total_toc_tables := toc_tables.length
        total_body_tables := body_tables.length
        mismatches := colA.zip colB }
  else Except.error "All arrays must be of the same length"

end ReportGenerator

/-! ### JSONL persistence (`json.dumps` with `ensure_ascii=False`) -/

/-- Hex digits for `json.dumps` control-character escapes. -/
def hexDigitChar (n : Nat) : Char :=
  "0123456789abcdef".data.getD n '0'

/-- `json.dumps` escaping of one character (`ensure_ascii=False`). -/
def jsonEscapeChar (c : Char) : String :=
  if c = '"' then "\\\""
  else if c = '\\' then "\\\\"
  else if c = '\n' then "\\n"
  else if c = '\t' then "\\t"
  else if c = '\r' then "\\r"
  else if c = '\x08' then "\\b"
  else if c = '\x0c' then "\\f"
  else if c.toNat < 32 then
    "\\u00" ++ String.mk [hexDigitChar (c.toNat / 16), hexDigitChar (c.toNat % 16)]
  else String.mk [c]

/-- A JSON string literal as `json.dumps` renders it. -/
def jsonStr (s : String) : String :=
  "\"" ++ String.join (s.data.map jsonEscapeChar) ++ "\""

/-- `null` or a JSON string, for the `Optional[str]` fields. -/
def jsonOptStr : Option String → String
  | none => "null"
  | some s => jsonStr s

/-- One JSONL line body for a `Section`:
`json.dumps(asdict(section), ensure_ascii=False)` with the dataclass field
order and the default `", "`/`": "` separators. -/
def sectionJson (s : Section) : String :=
  "\x7b" ++ "\"doc_title\": " ++ jsonStr s.doc_title
  ++ ", \"section_id\": " ++ jsonStr s.section_id
  ++ ", \"title\": " ++ jsonStr s.title
  ++ ", \"page_start_1idx\": " ++ toString s.page_start_1idx
  ++ ", \"level\": " ++ toString s.level
  ++ ", \"parent_id\": " ++ jsonOptStr s.parent_id
  ++ ", \"full_path\": " ++ jsonStr s.full_path
  ++ ", \"tags\": [" ++ String.intercalate ", " (s.tags.map jsonStr) ++ "]"
  ++ ", \"text\": " ++ jsonOptStr s.text
  ++ "\x7d"

namespace JSONLWriter

/-- `JSONLWriter.write`: the bytes written to a JSONL file of sections. -/
def write (items : List Section) : String :=
  String.join (items.map fun s => sectionJson s ++ "\n")

end JSONLWriter

/-- The single metadata record, as written to `usb_pd_metadata.jsonl`. -/
def metadataJson (doc_title : String) (pages : Int) : String :=
  "\x7b" ++ "\"doc_title\": " ++ jsonStr doc_title
  ++ ", \"pages\": " ++ toString pages ++ "\x7d\n"

/-! ### Orchestrator -/

instance : DecidableEq (Except String Report) := fun x y =>
  match x, y with
  | .error a, .error b =>
    if h : a = b then isTrue (congrArg Except.error h)
    else isFalse (fun hc => h (by cases hc; rfl))
  | .error _, .ok _ => isFalse (fun hc => Except.noConfusion hc)
  | .ok _, .error _ => isFalse (fun hc => Except.noConfusion hc)
  | .ok a, .ok b =>
    if h : a = b then isTrue (congrArg Except.ok h)
    else isFalse (fun hc => h (by cases hc; rfl))

/-- Observable outcome of `USBPDParser.run`: the bytes of the three JSONL
output files (`none` when the run aborts before writing them) and the report
generation outcome. -/
structure RunResult where
  toc_file : Option String
  spec_file : Option String
  meta_file : Option String
  report : Option (Except String Report)
deriving DecidableEq

namespace USBPDParser

/-- `USBPDParser.run`: read the ToC (aborting with no outputs when both
strategies come back empty), write the ToC records, resolve section text and
write the spec records, write the metadata record, build the two table
inventories, and generate the validation report.  In the source the ToC file
is written before boundary resolution mutates the section objects in place,
so its records carry `text = None`, as here. -/
def run (hint : Option (List Int)) (pi : List String → List String)
    (pdf : PDFLoader) (doc_title : String) : RunResult :=
  let toc_sections := TOCReader.read hint pdf doc_title
  if toc_sections.isEmpty then
    { toc_file := none, spec_file := none, meta_file := none, report := none }
  else
    let spec_sections := SpecParser.extract_sections_text pdf toc_sections
    let toc_tables := TableParser.list_from_list_of_tables pi pdf
    let body_tables := TableParser.count_in_body pi spec_sections
    { toc_file := some (JSONLWriter.write toc_sections)
      spec_file := some (JSONLWriter.write spec_sections)
      meta_file := some (metadataJson doc_title pdf.page_count)
      report := some (ReportGenerator.generate toc_sections spec_sections toc_tables body_tables) }

end USBPDParser

/-! ### Lemmas about boundary resolution -/

namespace SpecParser

@[simp]
theorem ranges_nil (lp : Int) : ranges [] lp = [] := rfl

@[simp]
theorem ranges_single (s : Section) (lp : Int) :
    ranges [s] lp = [(s.page_start_1idx, max s.page_start_1idx lp)] := rfl

@[simp]
theorem ranges_cons₂ (s t : Section) (rest : List Section) (lp : Int) :
    ranges (s :: t :: rest) lp =
      (s.page_start_1idx, max s.page_start_1idx (t.page_start_1idx - 1))
        :: ranges (t :: rest) lp := rfl

theorem ranges_length : ∀ (l : List Section) (lp : Int), (ranges l lp).length = l.length
  | [], _ => rfl
  | [_], _ => rfl
  | _ :: t :: rest, lp => by
    simp only [ranges_cons₂, List.length_cons, ranges_length (t :: rest) lp]

theorem ranges_map_fst : ∀ (l : List Section) (lp : Int),
    (ranges l lp).map Prod.fst = l.map (·.page_start_1idx)
  | [], _ => rfl
  | [_], _ => rfl
  | _ :: t :: rest, lp => by
    simp only [ranges_cons₂, List.map_cons, ranges_map_fst (t :: rest) lp]

theorem ranges_start_le_stop : ∀ (l : List Section) (lp : Int),
    ∀ r ∈ ranges l lp, r.1 ≤ r.2
  | [], _, r, hr => by simp at hr
  | [s], lp, r, hr => by
    simp only [ranges_single, List.mem_singleton] at hr
    subst hr
    exact le_max_left _ _
  | s :: t :: rest, lp, r, hr => by
    simp only [ranges_cons₂, List.mem_cons] at hr
    rcases hr with h | h
    · subst h
      exact le_max_left _ _
    · exact ranges_start_le_stop (t :: rest) lp r h

theorem ranges_cover : ∀ (t : List Section) (s : Section) (lp : Int),
    (s :: t).Pairwise pageLT → (∀ x ∈ s :: t, x.page_start_1idx ≤ lp) →
    ∀ p : Int,
      (∃ r ∈ ranges (s :: t) lp, r.1 ≤ p ∧ p ≤ r.2) ↔
        s.page_start_1idx ≤ p ∧ p ≤ lp
  | [], s, lp, _, hle, p => by
    have hs : s.page_start_1idx ≤ lp := hle s (by simp)
    simp [ranges_single, max_eq_right hs]
  | u :: t, s, lp, hpw, hle, p => by
    have hsu : s.page_start_1idx < u.page_start_1idx :=
      (List.pairwise_cons.mp hpw).1 u (by simp)
    have hul : u.page_start_1idx ≤ lp := hle u (by simp)
    have hmax : max s.page_start_1idx (u.page_start_1idx - 1) = u.page_start_1idx - 1 :=
      max_eq_right (by omega)
    have ih := ranges_cover t u lp (List.pairwise_cons.mp hpw).2
      (fun x hx => hle x (List.mem_cons_of_mem _ hx)) p
    constructor
    · rintro ⟨r, hr, h1, h2⟩
      rcases (List.mem_cons.mp (by simpa only [ranges_cons₂] using hr)) with he | ht
      · subst he
        simp only [hmax] at h2
        constructor
        · exact h1
        · omega
      · have := ih.mp ⟨r, ht, h1, h2⟩
        constructor
        · omega
        · exact this.2
    · rintro ⟨h1, h2⟩
      by_cases hc : p ≤ u.page_start_1idx - 1
      · refine ⟨(s.page_start_1idx, max s.page_start_1idx (u.page_start_1idx - 1)), ?_, h1, ?_⟩
        · simp [ranges_cons₂]
        · simp only [hmax]
          exact hc
      · obtain ⟨r, hr, hh⟩ := ih.mpr ⟨by omega, h2⟩
        exact ⟨r, by simp [ranges_cons₂, hr], hh⟩

theorem ranges_disjoint : ∀ (l : List Section) (lp : Int), l.Pairwise pageLT →
    (ranges l lp).Pairwise (fun r1 r2 => r1.2 < r2.1)
  | [], _, _ => List.Pairwise.nil
  | [s], _, _ => by simp
  | s :: u :: t, lp, hpw => by
    have hsu : s.page_start_1idx < u.page_start_1idx :=
      (List.pairwise_cons.mp hpw).1 u (by simp)
    have htail := ranges_disjoint (u :: t) lp (List.pairwise_cons.mp hpw).2
    simp only [ranges_cons₂]
    refine List.Pairwise.cons ?_ htail
    intro r hr
    have h1 : r.1 ∈ (u :: t).map (·.page_start_1idx) := by
      rw [← ranges_map_fst (u :: t) lp]
      exact List.mem_map_of_mem Prod.fst hr
    simp only [List.mem_map, List.mem_cons] at h1
    obtain ⟨x, hx, hxe⟩ := h1
    have hux : u.page_start_1idx ≤ x.page_start_1idx := by
      rcases hx with rfl | hx
      · exact le_refl _
      · exact le_of_lt ((List.pairwise_cons.mp (List.pairwise_cons.mp hpw).2).1 x hx)
    have hmax : max s.page_start_1idx (u.page_start_1idx - 1) = u.page_start_1idx - 1 :=
      max_eq_right (by omega)
    simp only [hmax]
    omega

theorem ranges_get? : ∀ (l : List Section) (lp : Int) (i : Nat) (s : Section),
    l.get? i = some s →
    (ranges l lp).get? i = some (s.page_start_1idx,
      match l.get? (i + 1) with
      | some u => max s.page_start_1idx (u.page_start_1idx - 1)
      | none => max s.page_start_1idx lp)
  | [], _, i, _, h => by simp at h
  | [a], lp, 0, s, h => by
    simp only [List.get?] at h
    cases h
    rfl
  | [a], _, i + 1, _, h => by simp at h
  | a :: b :: t, lp, 0, s, h => by
    simp only [List.get?] at h
    cases h
    rfl
  | a :: b :: t, lp, i + 1, s, h => by
    simpa only [ranges_cons₂, List.get?] using ranges_get? (b :: t) lp i s (by simpa using h)

end SpecParser

/-! ### Stability of the page sort -/

theorem filter_orderedInsert_page (v : Int) (a : Section) :
    ∀ m : List Section,
      ((m.orderedInsert pageLE a).filter (fun s => s.page_start_1idx == v))
        = if a.page_start_1idx == v then
            a :: m.filter (fun s => s.page_start_1idx == v)
          else m.filter (fun s => s.page_start_1idx == v)
  | [] => by
    simp only [List.orderedInsert, List.filter]
    cases hav : a.page_start_1idx == v <;> simp
  | b :: m => by
    simp only [List.orderedInsert]
    by_cases hab : pageLE a b
    · simp only [if_pos hab, List.filter]
      cases hav : a.page_start_1idx == v <;> simp
    · simp only [if_neg hab, List.filter_cons, filter_orderedInsert_page v a m]
      by_cases hav : (a.page_start_1idx == v) = true
      · have hbv : (b.page_start_1idx == v) = false := by
          have h1 : ¬ a.page_start_1idx ≤ b.page_start_1idx := hab
          have h2 : a.page_start_1idx = v := by simpa using hav
          simp only [beq_eq_false_iff_ne, ne_eq]
          omega
        simp [hav, hbv]
      · simp only [Bool.not_eq_true] at hav
        simp [hav]

theorem filter_sortedByPage (v : Int) :
    ∀ l : List Section,
      ((sortedByPage l).filter (fun s => s.page_start_1idx == v))
        = l.filter (fun s => s.page_start_1idx == v)
  | [] => rfl
  | a :: l => by
    simp only [sortedByPage, List.insertionSort]
    rw [filter_orderedInsert_page v a (l.insertionSort pageLE)]
    rw [show l.insertionSort pageLE = sortedByPage l from rfl, filter_sortedByPage v l]
    simp [List.filter_cons]

theorem sortedByPage_perm (l : List Section) : List.Perm (sortedByPage l) l :=
  List.perm_insertionSort pageLE l

theorem sortedByPage_sorted (l : List Section) : (sortedByPage l).Sorted pageLE :=
  List.sorted_insertionSort pageLE l

theorem sortedByPage_strict_of_distinct (l : List Section)
    (hdist : (l.map (·.page_start_1idx)).Pairwise (· ≠ ·)) :
    (sortedByPage l).Pairwise pageLT := by
  have hs : (sortedByPage l).Pairwise pageLE := sortedByPage_sorted l
  have hnd : l.Pairwise (fun a b => a.page_start_1idx ≠ b.page_start_1idx) :=
    List.pairwise_map.mp hdist
  have hnd2 : (sortedByPage l).Pairwise (fun a b => a.page_start_1idx ≠ b.page_start_1idx) :=
    ((sortedByPage_perm l).pairwise_iff (fun h => Ne.symm h)).mpr hnd
  refine (hs.and hnd2).imp ?_
  rintro a b ⟨h1, h2⟩
  exact lt_of_le_of_ne h1 h2

/-! ### Frame lemmas: resolution writes only `text` -/

theorem map_eraseText_assign (f : Section × (Int × Int) → Option String) :
    ∀ (l : List Section) (rs : List (Int × Int)), rs.length = l.length →
      (((l.zip rs).map (fun p => { p.1 with text := f p })).map eraseText) = l.map eraseText
  | [], _, _ => by simp
  | a :: l, [], h => by simp at h
  | a :: l, r :: rs, h => by
    simp only [List.zip_cons_cons, List.map_cons]
    refine congrArg₂ _ rfl ?_
    exact map_eraseText_assign f l rs (by simpa using h)

theorem extract_map_eraseText (pdf : PDFLoader) (sections : List Section) :
    (SpecParser.extract_sections_text pdf sections).map eraseText
      = (sortedByPage sections).map eraseText := by
  unfold SpecParser.extract_sections_text
  by_cases h : sections.isEmpty
  · rw [if_pos h]
    have : sections = [] := List.isEmpty_iff.mp h
    subst this
    rfl
  · rw [if_neg h]
    exact map_eraseText_assign _ (sortedByPage sections) _
      (SpecParser.ranges_length (sortedByPage sections) pdf.page_count)

theorem extract_map_section_id (pdf : PDFLoader) (sections : List Section) :
    (SpecParser.extract_sections_text pdf sections).map (·.section_id)
      = (sortedByPage sections).map (·.section_id) := by
  have h := extract_map_eraseText pdf sections
  have h1 : ∀ m : List Section, m.map (·.section_id) = (m.map eraseText).map (·.section_id) := by
    intro m
    rw [List.map_map]
    rfl
  rw [h1 (SpecParser.extract_sections_text pdf sections), h1 (sortedByPage sections), h]

theorem if_lt_eq_max (a b : Int) : (if b < a then a else b) = max a b := by
  rcases le_or_lt a b with h | h
  · rw [if_neg (not_lt.mpr h), max_eq_right h]
  · rw [if_pos h, max_eq_left (le_of_lt h)]

/-! ### Concrete documents and sections used to instantiate the claims -/

/-- A minimal section record with a given id and start page. -/
def mkSection (id : String) (pg : Int) : Section :=
  { doc_title := "doc", section_id := id, title := "t", page_start_1idx := pg,
    level := 1, parent_id := none, full_path := "", tags := [] }

/-- A two-page document with no outline. -/
def pdf2 : PDFLoader := ⟨["pa", "pb"], []⟩

/-- A four-page document with no outline. -/
def pdf4 : PDFLoader := ⟨["p1", "p2", "p3", "p4"], []⟩

/-- A seven-page document with no outline (the spec's scenario document). -/
def pdf7 : PDFLoader := ⟨["q1", "q2", "q3", "q4", "q5", "q6", "q7"], []⟩

/-! ### Claim C1 -/

/-- Claim C1 (amended): for every non-empty section list whose `page_start`
values are pairwise distinct and at most the document's last page, the
resolved page ranges (in page-sorted order) partition the integer interval
from the minimum `page_start` to the document's last page: a page is covered
by some range exactly when it lies in that interval, each range ends
strictly before the next begins (so no two overlap), and no range is
empty. -/
theorem resolved_ranges_partition (pdf : PDFLoader) (sections : List Section)
    (hne : sections ≠ [])
    (hdist : (sections.map (·.page_start_1idx)).Pairwise (· ≠ ·))
    (hbound : ∀ s ∈ sections, s.page_start_1idx ≤ pdf.page_count) :
    ∃ m : Int,
      m ∈ sections.map (·.page_start_1idx) ∧
      (∀ q ∈ sections.map (·.page_start_1idx), m ≤ q) ∧
      (∀ p : Int,
        (∃ r ∈ SpecParser.ranges (sortedByPage sections) pdf.page_count,
            r.1 ≤ p ∧ p ≤ r.2) ↔ m ≤ p ∧ p ≤ pdf.page_count) ∧
      (SpecParser.ranges (sortedByPage sections) pdf.page_count).Pairwise
        (fun r1 r2 => r1.2 < r2.1) ∧
      (∀ r ∈ SpecParser.ranges (sortedByPage sections) pdf.page_count, r.1 ≤ r.2) := by
  have hperm := sortedByPage_perm sections
  have hstrict := sortedByPage_strict_of_distinct sections hdist
  obtain ⟨s0, t0, hss⟩ : ∃ s0 t0, sortedByPage sections = s0 :: t0 := by
    cases h : sortedByPage sections with
    | nil =>
      exact absurd (h ▸ hperm).symm.eq_nil hne
    | cons a b => exact ⟨a, b, rfl⟩
  have hbound2 : ∀ x ∈ sortedByPage sections, x.page_start_1idx ≤ pdf.page_count :=
    fun x hx => hbound x (hperm.mem_iff.mp hx)
  refine ⟨s0.page_start_1idx, ?_, ?_, ?_, ?_, ?_⟩
  · have hmem : s0 ∈ sortedByPage sections := by
      rw [hss]
      simp
    exact List.mem_map_of_mem _ (hperm.mem_iff.mp hmem)
  · intro q hq
    simp only [List.mem_map] at hq
    obtain ⟨x, hx, rfl⟩ := hq
    have hx2 : x ∈ sortedByPage sections := hperm.mem_iff.mpr hx
    rw [hss] at hx2
    rcases List.mem_cons.mp hx2 with rfl | hx3
    · exact le_refl _
    · have hsorted := sortedByPage_sorted sections
      rw [hss] at hsorted
      exact (List.pairwise_cons.mp hsorted).1 x hx3
  · intro p
    have hc := SpecParser.ranges_cover t0 s0 pdf.page_count (hss ▸ hstrict) (hss ▸ hbound2) p
    rw [hss]
    exact hc
  · exact SpecParser.ranges_disjoint _ _ hstrict
  · exact SpecParser.ranges_start_le_stop _ _

/-- Witness for C1: the amended theorem applied to the concrete two-section
document, all hypotheses discharged by computation. -/
theorem resolved_ranges_partition_witness :
    ∃ m : Int,
      m ∈ [mkSection "A" 1, mkSection "B" 3].map (·.page_start_1idx) ∧
      (∀ q ∈ [mkSection "A" 1, mkSection "B" 3].map (·.page_start_1idx), m ≤ q) ∧
      (∀ p : Int,
        (∃ r ∈ SpecParser.ranges (sortedByPage [mkSection "A" 1, mkSection "B" 3])
            pdf4.page_count, r.1 ≤ p ∧ p ≤ r.2) ↔ m ≤ p ∧ p ≤ pdf4.page_count) ∧
      (SpecParser.ranges (sortedByPage [mkSection "A" 1, mkSection "B" 3])
          pdf4.page_count).Pairwise (fun r1 r2 => r1.2 < r2.1) ∧
      (∀ r ∈ SpecParser.ranges (sortedByPage [mkSection "A" 1, mkSection "B" 3])
          pdf4.page_count, r.1 ≤ r.2) :=
  resolved_ranges_partition pdf4 [mkSection "A" 1, mkSection "B" 3]
    (by decide) (by decide) (by decide)

/-- Counterexample for C1 as stated: with two sections both starting on page
1 of a two-page document, the resolved ranges are `[(1,1), (1,2)]`, which
overlap; and with a single section starting on page 9 of the same two-page
document, page 9 is covered even though it lies outside
`[min page_start, page_count]`, so the union is not that interval. -/
theorem resolved_ranges_partition_counterexample :
    SpecParser.ranges (sortedByPage [mkSection "A" 1, mkSection "B" 1]) pdf2.page_count
        = [(1, 1), (1, 2)] ∧
    ¬ (SpecParser.ranges (sortedByPage [mkSection "A" 1, mkSection "B" 1])
        pdf2.page_count).Pairwise (fun r1 r2 => r1.2 < r2.1 ∨ r2.2 < r1.1) ∧
    (∃ r ∈ SpecParser.ranges (sortedByPage [mkSection "X" 9]) pdf2.page_count,
        r.1 ≤ 9 ∧ 9 ≤ r.2) ∧
    ¬ ((9 : Int) ≤ pdf2.page_count) :=
  ⟨by decide, by decide, by decide, by decide⟩

/-! ### Claim C2 -/

/-- Claim C2 (amended): boundary resolution sorts the sections by
`page_start` ascending — stably: a permutation, sorted, preserving the
original order of sections with equal start page — and assigns position `i`
the range from its own start to the next section's start minus one, clamped
below by its own start; the last section's range ends at the document's
final page, clamped below by its own start page.  No range is empty, the
resolver is exactly this sort-assign-slice computation, and on the spec's
scenario (sections starting on pages 1, 2, 5 of a 7-page document) the
resolved ranges are `[1,1], [2,4], [5,7]`. -/
theorem boundary_resolution_algorithm (pdf : PDFLoader) (sections : List Section)
    (hne : sections ≠ []) :
    List.Perm (sortedByPage sections) sections ∧
    (sortedByPage sections).Sorted pageLE ∧
    (∀ v : Int, (sortedByPage sections).filter (fun s => s.page_start_1idx == v)
        = sections.filter (fun s => s.page_start_1idx == v)) ∧
    (∀ (i : Nat) (s : Section), (sortedByPage sections).get? i = some s →
      (SpecParser.ranges (sortedByPage sections) pdf.page_count).get? i
        = some (s.page_start_1idx,
            match (sortedByPage sections).get? (i + 1) with
            | some u =>
              if u.page_start_1idx - 1 < s.page_start_1idx then s.page_start_1idx
              else u.page_start_1idx - 1
            | none =>
              if pdf.page_count < s.page_start_1idx then s.page_start_1idx
              else pdf.page_count)) ∧
    (∀ r ∈ SpecParser.ranges (sortedByPage sections) pdf.page_count, r.1 ≤ r.2) ∧
    SpecParser.extract_sections_text pdf sections
      = ((sortedByPage sections).zip
          (SpecParser.ranges (sortedByPage sections) pdf.page_count)).map
          (fun p =>
            { p.1 with
              text := some (pyStrip (pdf.get_text (SpecParser.pageIndices p.2.1 p.2.2))) }) ∧
    SpecParser.ranges (sortedByPage [mkSection "1" 1, mkSection "1.1" 2, mkSection "2" 5])
        pdf7.page_count = [(1, 1), (2, 4), (5, 7)] := by
  refine ⟨sortedByPage_perm sections, sortedByPage_sorted sections,
    fun v => filter_sortedByPage v sections, ?_,
    SpecParser.ranges_start_le_stop _ _, ?_, by decide⟩
  · intro i s h
    rw [SpecParser.ranges_get? _ _ i s h]
    cases hu : (sortedByPage sections).get? (i + 1) with
    | none => simp only [hu, if_lt_eq_max]
    | some u => simp only [hu, if_lt_eq_max]
  · unfold SpecParser.extract_sections_text
    rw [if_neg (by simpa using hne)]

/-- Witness for C2: the amended theorem applied to a concrete out-of-order
two-section list on the two-page document. -/
theorem boundary_resolution_algorithm_witness :
    List.Perm (sortedByPage [mkSection "S" 2, mkSection "T" 1])
      [mkSection "S" 2, mkSection "T" 1] ∧
    (sortedByPage [mkSection "S" 2, mkSection "T" 1]).Sorted pageLE ∧
    (∀ v : Int,
      ((sortedByPage [mkSection "S" 2, mkSection "T" 1]).filter
          (fun s => s.page_start_1idx == v))
        = [mkSection "S" 2, mkSection "T" 1].filter (fun s => s.page_start_1idx == v)) ∧
    (∀ (i : Nat) (s : Section),
      (sortedByPage [mkSection "S" 2, mkSection "T" 1]).get? i = some s →
      (SpecParser.ranges (sortedByPage [mkSection "S" 2, mkSection "T" 1])
          pdf2.page_count).get? i
        = some (s.page_start_1idx,
            match (sortedByPage [mkSection "S" 2, mkSection "T" 1]).get? (i + 1) with
            | some u =>
              if u.page_start_1idx - 1 < s.page_start_1idx then s.page_start_1idx
              else u.page_start_1idx - 1
            | none =>
              if pdf2.page_count < s.page_start_1idx then s.page_start_1idx
              else pdf2.page_count)) ∧
    (∀ r ∈ SpecParser.ranges (sortedByPage [mkSection "S" 2, mkSection "T" 1])
        pdf2.page_count, r.1 ≤ r.2) ∧
    SpecParser.extract_sections_text pdf2 [mkSection "S" 2, mkSection "T" 1]
      = ((sortedByPage [mkSection "S" 2, mkSection "T" 1]).zip
          (SpecParser.ranges (sortedByPage [mkSection "S" 2, mkSection "T" 1])
            pdf2.page_count)).map
          (fun p =>
            { p.1 with
              text := some (pyStrip (pdf2.get_text (SpecParser.pageIndices p.2.1 p.2.2))) }) ∧
    SpecParser.ranges (sortedByPage [mkSection "1" 1, mkSection "1.1" 2, mkSection "2" 5])
        pdf7.page_count = [(1, 1), (2, 4), (5, 7)] :=
  boundary_resolution_algorithm pdf2 [mkSection "S" 2, mkSection "T" 1] (by decide)

/-- Counterexample for C2 as stated: a single section starting on page 10 of
the 7-page document resolves to the range `(10, 10)`, not to a range ending
at the document's final page 7 as the claim's formula for the last section
prescribes. -/
theorem boundary_resolution_counterexample :
    SpecParser.ranges (sortedByPage [mkSection "X" 10]) pdf7.page_count = [(10, 10)] ∧
    SpecParser.ranges (sortedByPage [mkSection "X" 10]) pdf7.page_count ≠ [(10, 7)] ∧
    pdf7.page_count = 7 :=
  ⟨by decide, by decide, by decide⟩

/-! ### Claim C8 -/

/-- Claim C8 (confirmed): boundary resolution writes only the `text` field.
With `text` erased, the resolved list is exactly the page-sorted input list,
and hence a permutation of the input with `text` erased: every section keeps
its `section_id`, `title`, `level`, `parent_id`, `page_start_1idx`,
`doc_title`, `full_path` and `tags`. -/
theorem resolution_frame_only_text (pdf : PDFLoader) (sections : List Section) :
    (SpecParser.extract_sections_text pdf sections).map eraseText
        = (sortedByPage sections).map eraseText ∧
    List.Perm ((SpecParser.extract_sections_text pdf sections).map eraseText)
      (sections.map eraseText) :=
  ⟨extract_map_eraseText pdf sections,
    (extract_map_eraseText pdf sections) ▸ ((sortedByPage_perm sections).map eraseText)⟩

/-! ### Lemmas about the bookmark strategy -/

/-- Number of sections among `m` with an empty id and the given level: the
value reached by the per-level synthetic-id counter after processing `m`. -/
def countUnparsed (m : List Section) (lvl : Int) : Nat :=
  (m.filter (fun x => x.section_id == "" && x.level == lvl)).length

theorem countUnparsed_cons (x : Section) (m : List Section) (lvl : Int) :
    countUnparsed (x :: m) lvl
      = (if (x.section_id == "" && x.level == lvl) = true then 1 else 0)
        + countUnparsed m lvl := by
  simp only [countUnparsed, List.filter_cons]
  split
  · simp only [List.length_cons]
    omega
  · simp

namespace BookmarkTOCStrategy

theorem fillMissing_get?_of_nonempty :
    ∀ (cnt : Int → Nat) (l : List Section) (i : Nat) (s : Section),
      l.get? i = some s → s.section_id ≠ "" →
      (fillMissing cnt l).get? i = some s
  | _, [], i, _, h, _ => by simp at h
  | cnt, a :: l, 0, s, h, hs => by
    rw [List.get?_cons_zero] at h
    cases h
    simp only [fillMissing, if_pos hs]
    rfl
  | cnt, a :: l, i + 1, s, h, hs => by
    rw [List.get?_cons_succ] at h
    by_cases ha : a.section_id ≠ ""
    · simp only [fillMissing, if_pos ha, List.get?_cons_succ]
      exact fillMissing_get?_of_nonempty cnt l i s h hs
    · simp only [fillMissing, if_neg ha, List.get?_cons_succ]
      exact fillMissing_get?_of_nonempty _ l i s h hs

theorem fillMissing_get?_of_empty :
    ∀ (cnt : Int → Nat) (l : List Section) (i : Nat) (s : Section),
      l.get? i = some s → s.section_id = "" →
      (fillMissing cnt l).get? i
        = some { s with
            section_id := "L" ++ toString s.level ++ "-"
              ++ pad3 (cnt s.level + countUnparsed (l.take (i + 1)) s.level),
            parent_id := none }
  | _, [], i, _, h, _ => by simp at h
  | cnt, a :: l, 0, s, h, hs => by
    rw [List.get?_cons_zero] at h
    injection h with h
    subst h
    have hcond : ¬ a.section_id ≠ "" := by simp [hs]
    have hcount : countUnparsed ((a :: l).take (0 + 1)) a.level = 1 := by
      simp [countUnparsed, List.filter, hs]
    rw [hcount]
    simp only [fillMissing, if_neg hcond, List.get?_cons_zero]
  | cnt, a :: l, i + 1, s, h, hs => by
    rw [List.get?_cons_succ] at h
    rw [List.take_succ_cons, countUnparsed_cons]
    by_cases ha : a.section_id ≠ ""
    · have hcond : (a.section_id == "" && a.level == s.level) = false := by
        simp only [Bool.and_eq_false_iff, beq_eq_false_iff_ne, ne_eq]
        left
        simpa using ha
      rw [hcond]
      simp only [fillMissing, if_pos ha, List.get?_cons_succ]
      rw [fillMissing_get?_of_empty cnt l i s h hs]
      simp
    · have ha2 : a.section_id = "" := by simpa using ha
      simp only [fillMissing, if_neg ha, List.get?_cons_succ]
      rw [fillMissing_get?_of_empty _ l i s h hs]
      by_cases hlv : a.level = s.level
      · have hcond : (a.section_id == "" && a.level == s.level) = true := by
          simp [ha2, hlv]
        rw [hcond]
        simp [hlv, Nat.add_assoc]
      · have hcond : (a.section_id == "" && a.level == s.level) = false := by
          simp only [Bool.and_eq_false_iff, beq_eq_false_iff_ne, ne_eq]
          right
          exact hlv
        rw [hcond]
        have hlv2 : ¬ s.level = a.level := fun hh => hlv hh.symm
        simp [hlv2]

end BookmarkTOCStrategy

theorem isEmpty_false_of_ne_nil {α : Type} {l : List α} (h : l ≠ []) : l.isEmpty = false := by
  cases hb : l.isEmpty
  · rfl
  · exact absurd (List.isEmpty_iff.mp hb) h

theorem hasDot_ne_empty (s : String) (h : hasDot s = true) : s ≠ "" := by
  intro hc
  subst hc
  exact absurd h (by decide)

/-! ### Pipeline skeleton lemmas -/

theorem tocRead_bookmark (hint : Option (List Int)) (pdf : PDFLoader) (dt : String)
    (hb : BookmarkTOCStrategy.read pdf dt ≠ []) :
    TOCReader.read hint pdf dt = BookmarkTOCStrategy.read pdf dt := by
  simp [TOCReader.read, isEmpty_false_of_ne_nil hb]

theorem tocRead_regex (hint : Option (List Int)) (pdf : PDFLoader) (dt : String)
    (hb : BookmarkTOCStrategy.read pdf dt = [])
    (hr : RegexTOCStrategy.read hint pdf dt ≠ []) :
    TOCReader.read hint pdf dt = RegexTOCStrategy.read hint pdf dt := by
  simp [TOCReader.read, hb, isEmpty_false_of_ne_nil hr]

theorem tocRead_empty (hint : Option (List Int)) (pdf : PDFLoader) (dt : String)
    (hb : BookmarkTOCStrategy.read pdf dt = [])
    (hr : RegexTOCStrategy.read hint pdf dt = []) :
    TOCReader.read hint pdf dt = [] := by
  simp [TOCReader.read, hb, hr]

theorem run_toc_empty (hint : Option (List Int)) (pi : List String → List String)
    (pdf : PDFLoader) (dt : String) (h : TOCReader.read hint pdf dt = []) :
    USBPDParser.run hint pi pdf dt
      = { toc_file := none, spec_file := none, meta_file := none, report := none } := by
  simp [USBPDParser.run, h]

theorem run_toc_nonempty (hint : Option (List Int)) (pi : List String → List String)
    (pdf : PDFLoader) (dt : String) (h : TOCReader.read hint pdf dt ≠ []) :
    USBPDParser.run hint pi pdf dt
      = { toc_file := some (JSONLWriter.write (TOCReader.read hint pdf dt))
          spec_file := some (JSONLWriter.write
            (SpecParser.extract_sections_text pdf (TOCReader.read hint pdf dt)))
          meta_file := some (metadataJson dt pdf.page_count)
          report := some (ReportGenerator.generate
            (TOCReader.read hint pdf dt)
            (SpecParser.extract_sections_text pdf (TOCReader.read hint pdf dt))
            (TableParser.list_from_list_of_tables pi pdf)
            (TableParser.count_in_body pi
              (SpecParser.extract_sections_text pdf (TOCReader.read hint pdf dt)))) } := by
  simp [USBPDParser.run, isEmpty_false_of_ne_nil h]

/-! ### Claim C3 -/

/-- Claim C3 (confirmed): the two ToC strategies are tried in fixed priority
order — bookmarks first, regex second — and the first strategy returning a
non-empty list is the one whose output the pipeline uses (no merging); when
both return zero sections, the run terminates writing neither the ToC, spec
nor metadata file, and generating no report. -/
theorem strategy_priority_fallback (hint : Option (List Int))
    (pi : List String → List String) (pdf : PDFLoader) (dt : String) :
    (BookmarkTOCStrategy.read pdf dt ≠ [] →
      TOCReader.read hint pdf dt = BookmarkTOCStrategy.read pdf dt ∧
      (USBPDParser.run hint pi pdf dt).toc_file
        = some (JSONLWriter.write (BookmarkTOCStrategy.read pdf dt))) ∧
    (BookmarkTOCStrategy.read pdf dt = [] → RegexTOCStrategy.read hint pdf dt ≠ [] →
      TOCReader.read hint pdf dt = RegexTOCStrategy.read hint pdf dt ∧
      (USBPDParser.run hint pi pdf dt).toc_file
        = some (JSONLWriter.write (RegexTOCStrategy.read hint pdf dt))) ∧
    (BookmarkTOCStrategy.read pdf dt = [] → RegexTOCStrategy.read hint pdf dt = [] →
      TOCReader.read hint pdf dt = [] ∧
      USBPDParser.run hint pi pdf dt
        = { toc_file := none, spec_file := none, meta_file := none, report := none }) := by
  refine ⟨fun hb => ?_, fun hb hr => ?_, fun hb hr => ?_⟩
  · have ht := tocRead_bookmark hint pdf dt hb
    have hne : TOCReader.read hint pdf dt ≠ [] := ht ▸ hb
    rw [run_toc_nonempty hint pi pdf dt hne, ht]
    exact ⟨rfl, rfl⟩
  · have ht := tocRead_regex hint pdf dt hb hr
    have hne : TOCReader.read hint pdf dt ≠ [] := ht ▸ hr
    rw [run_toc_nonempty hint pi pdf dt hne, ht]
    exact ⟨rfl, rfl⟩
  · have ht := tocRead_empty hint pdf dt hb hr
    exact ⟨ht, run_toc_empty hint pi pdf dt ht⟩

/-- A one-page document whose outline yields one bookmark section. -/
def pdfBoth : PDFLoader := ⟨["x"], [(1, "1 Intro", 1)]⟩

/-- A two-page document with no outline whose first page is a ToC line. -/
def pdfRegexOnly : PDFLoader := ⟨["1 A 2\n", "body text"], []⟩

/-- The empty document: no pages, no outline. -/
def pdfEmpty : PDFLoader := ⟨[], []⟩

/-- Witness for C3: all three cases of the fallback theorem instantiated on
concrete documents, every hypothesis discharged by computation. -/
theorem strategy_priority_fallback_witness :
    (TOCReader.read none pdfBoth "doc" = BookmarkTOCStrategy.read pdfBoth "doc" ∧
      (USBPDParser.run none id pdfBoth "doc").toc_file
        = some (JSONLWriter.write (BookmarkTOCStrategy.read pdfBoth "doc"))) ∧
    (TOCReader.read none pdfRegexOnly "doc" = RegexTOCStrategy.read none pdfRegexOnly "doc" ∧
      (USBPDParser.run none id pdfRegexOnly "doc").toc_file
        = some (JSONLWriter.write (RegexTOCStrategy.read none pdfRegexOnly "doc"))) ∧
    (TOCReader.read none pdfEmpty "doc" = [] ∧
      USBPDParser.run none id pdfEmpty "doc"
        = { toc_file := none, spec_file := none, meta_file := none, report := none }) :=
  ⟨(strategy_priority_fallback none id pdfBoth "doc").1 (by decide),
   (strategy_priority_fallback none id pdfRegexOnly "doc").2.1 (by decide) (by decide),
   (strategy_priority_fallback none id pdfEmpty "doc").2.2 (by decide) (by decide)⟩

/-! ### Claim C4 -/

/-- Claim C4 (amended): for every section extracted by the regex strategy,
`level` is the number of dots in its id plus one, and `parent_id` is the id
with its last dotted component removed when the id is dotted, `none`
otherwise.  For every bookmark-derived section whose title parses to a
dotted id, `parent_id` is likewise the id with its last dotted component
removed — but `level` is the outline's declared nesting level, not
recomputed from the id. -/
theorem hierarchy_from_ids (hint : Option (List Int)) (pdf : PDFLoader) (dt : String) :
    (∀ s ∈ RegexTOCStrategy.read hint pdf dt,
      s.level = (countDots s.section_id : Int) + 1 ∧
      (hasDot s.section_id = true → s.parent_id = some (stripLastComponent s.section_id)) ∧
      (hasDot s.section_id = false → s.parent_id = none)) ∧
    (∀ (i : Nat) (lvl : Int) (title : String) (pg : Int) (sid st : String),
      pdf.outline.get? i = some (lvl, title, pg) →
      secidFromTitle (pyStrip title) = some (sid, st) →
      hasDot sid = true →
      (BookmarkTOCStrategy.read pdf dt).get? i
        = some (BookmarkTOCStrategy.parseEntry dt (lvl, title, pg)) ∧
      (BookmarkTOCStrategy.parseEntry dt (lvl, title, pg)).section_id = sid ∧
      (BookmarkTOCStrategy.parseEntry dt (lvl, title, pg)).level = lvl ∧
      (BookmarkTOCStrategy.parseEntry dt (lvl, title, pg)).parent_id
        = some (stripLastComponent sid)) := by
  constructor
  · intro s hs
    simp only [RegexTOCStrategy.read, List.mem_map] at hs
    obtain ⟨m, _, rfl⟩ := hs
    refine ⟨rfl, fun h => ?_, fun h => ?_⟩
    · have h2 : hasDot (pyStrip m.1) = true := h
      show (if hasDot (pyStrip m.1) then some (stripLastComponent (pyStrip m.1)) else none)
        = some (stripLastComponent (RegexTOCStrategy.buildSection dt m).section_id)
      rw [if_pos h2]
      rfl
    · have h2 : hasDot (pyStrip m.1) = false := h
      show (if hasDot (pyStrip m.1) then some (stripLastComponent (pyStrip m.1)) else none)
        = none
      rw [if_neg (by simp [h2])]
  · intro i lvl title pg sid st ho hp hd
    have hsid : (BookmarkTOCStrategy.parseEntry dt (lvl, title, pg)).section_id = sid := by
      simp [BookmarkTOCStrategy.parseEntry, hp]
    have hlvl : (BookmarkTOCStrategy.parseEntry dt (lvl, title, pg)).level = lvl := by
      simp [BookmarkTOCStrategy.parseEntry, hp]
    have hne : sid ≠ "" := hasDot_ne_empty sid hd
    have hpar : (BookmarkTOCStrategy.parseEntry dt (lvl, title, pg)).parent_id
        = some (stripLastComponent sid) := by
      simp [BookmarkTOCStrategy.parseEntry, hp, hne, hd]
    have hol : pdf.outline ≠ [] := by
      intro hc
      rw [hc] at ho
      simp at ho
    have hget : (BookmarkTOCStrategy.read pdf dt).get? i
        = some (BookmarkTOCStrategy.parseEntry dt (lvl, title, pg)) := by
      unfold BookmarkTOCStrategy.read
      rw [if_neg (by simp [isEmpty_false_of_ne_nil hol])]
      refine BookmarkTOCStrategy.fillMissing_get?_of_nonempty _ _ i _ ?_ ?_
      · rw [List.get?_map, ho]
        rfl
      · rw [hsid]
        exact hne
    exact ⟨hget, hsid, hlvl, hpar⟩

/-- A two-page document whose outline declares `1.1 Overview` at nesting
level 1. -/
def pdfC4 : PDFLoader := ⟨["x", "y"], [(1, "1.1 Overview", 2)]⟩

/-- Counterexample for C4 as stated: the bookmark strategy extracts a
section with the dotted id `1.1` whose `level` is the outline's declared 1,
not the 2 the claim's dots-plus-one formula requires. -/
theorem hierarchy_counterexample :
    ∃ s ∈ BookmarkTOCStrategy.read pdfC4 "doc",
      s.section_id = "1.1" ∧ s.level ≠ 2 := by decide

/-- A two-page document whose first page is the ToC line `1.1 A 2`. -/
def pdfRegex1 : PDFLoader := ⟨["1.1 A 2\n", "body"], []⟩

/-- A one-page document whose outline declares `1.2 B` at nesting level 2. -/
def pdfBk1 : PDFLoader := ⟨["x"], [(2, "1.2 B", 4)]⟩

/-- Witness for C4: both halves of the amended theorem at concrete
documents, hypotheses discharged by computation. -/
theorem hierarchy_from_ids_witness :
    ((RegexTOCStrategy.buildSection "doc" ("1.1", "A", 2)).level
        = (countDots (RegexTOCStrategy.buildSection "doc" ("1.1", "A", 2)).section_id : Int)
          + 1 ∧
      (hasDot (RegexTOCStrategy.buildSection "doc" ("1.1", "A", 2)).section_id = true →
        (RegexTOCStrategy.buildSection "doc" ("1.1", "A", 2)).parent_id
          = some (stripLastComponent
              (RegexTOCStrategy.buildSection "doc" ("1.1", "A", 2)).section_id)) ∧
      (hasDot (RegexTOCStrategy.buildSection "doc" ("1.1", "A", 2)).section_id = false →
        (RegexTOCStrategy.buildSection "doc" ("1.1", "A", 2)).parent_id = none)) ∧
    ((BookmarkTOCStrategy.read pdfBk1 "doc").get? 0
        = some (BookmarkTOCStrategy.parseEntry "doc" (2, "1.2 B", 4)) ∧
      (BookmarkTOCStrategy.parseEntry "doc" (2, "1.2 B", 4)).section_id = "1.2" ∧
      (BookmarkTOCStrategy.parseEntry "doc" (2, "1.2 B", 4)).level = 2 ∧
      (BookmarkTOCStrategy.parseEntry "doc" (2, "1.2 B", 4)).parent_id
        = some (stripLastComponent "1.2")) :=
  ⟨(hierarchy_from_ids none pdfRegex1 "doc").1
      (RegexTOCStrategy.buildSection "doc" ("1.1", "A", 2)) (by decide),
   (hierarchy_from_ids none pdfBk1 "doc").2 0 2 "1.2 B" 4 "1.2" "B"
      (by decide) (by decide) (by decide)⟩

/-! ### Claim C7 -/

/-- Claim C7 (confirmed): every bookmark-derived section whose stripped
title does not parse to a leading dotted numeric id receives the synthetic
id `L{level}-{seq:03d}`, where `seq` counts the unparsed sections of that
level among the first `i+1` outline entries (so the per-level counter grows
by one at each such section, in order), and has no `parent_id`. -/
theorem synthetic_ids (pdf : PDFLoader) (dt : String) (i : Nat) (lvl : Int)
    (title : String) (pg : Int)
    (ho : pdf.outline.get? i = some (lvl, title, pg))
    (hp : secidFromTitle (pyStrip title) = none) :
    (BookmarkTOCStrategy.read pdf dt).get? i
      = some { BookmarkTOCStrategy.parseEntry dt (lvl, title, pg) with
          section_id := "L" ++ toString lvl ++ "-"
            ++ pad3 (countUnparsed
                ((pdf.outline.map (BookmarkTOCStrategy.parseEntry dt)).take (i + 1)) lvl),
          parent_id := none } ∧
    (BookmarkTOCStrategy.parseEntry dt (lvl, title, pg)).section_id = "" := by
  have hempty : (BookmarkTOCStrategy.parseEntry dt (lvl, title, pg)).section_id = "" := by
    simp [BookmarkTOCStrategy.parseEntry, hp]
  have hlvl : (BookmarkTOCStrategy.parseEntry dt (lvl, title, pg)).level = lvl := by
    simp [BookmarkTOCStrategy.parseEntry, hp]
  have hol : pdf.outline ≠ [] := by
    intro hc
    rw [hc] at ho
    simp at ho
  refine ⟨?_, hempty⟩
  unfold BookmarkTOCStrategy.read
  rw [if_neg (by simp [isEmpty_false_of_ne_nil hol])]
  have hmap : (pdf.outline.map (BookmarkTOCStrategy.parseEntry dt)).get? i
      = some (BookmarkTOCStrategy.parseEntry dt (lvl, title, pg)) := by
    rw [List.get?_map, ho]
    rfl
  rw [BookmarkTOCStrategy.fillMissing_get?_of_empty (fun _ => 0) _ i _ hmap hempty]
  simp [hlvl]

/-- A three-page document with outline entries `Intro`, `2 Scope`, `Annex`,
all at level 1: the first and third have no parsable id. -/
def pdfBk3 : PDFLoader :=
  ⟨["a", "b", "c"], [(1, "Intro", 1), (1, "2 Scope", 2), (1, "Annex", 3)]⟩

/-- Witness for C7: the synthetic-id theorem at the third outline entry of
the concrete document (the second unparsed level-1 section, so sequence
number 2). -/
theorem synthetic_ids_witness :
    (BookmarkTOCStrategy.read pdfBk3 "doc").get? 2
      = some { BookmarkTOCStrategy.parseEntry "doc" (1, "Annex", 3) with
          section_id := "L" ++ toString (1 : Int) ++ "-"
            ++ pad3 (countUnparsed
                ((pdfBk3.outline.map (BookmarkTOCStrategy.parseEntry "doc")).take 3) 1),
          parent_id := none } ∧
    (BookmarkTOCStrategy.parseEntry "doc" (1, "Annex", 3)).section_id = "" :=
  synthetic_ids pdfBk3 "doc" 2 1 "Annex" 3 (by decide) (by decide)

/-! ### Claim C5 -/

/-- Claim C5 (code bug): the report's "Sections Match (IDs)" value is indeed
"Yes" exactly on id-set equality, but when the two sorted
symmetric-difference columns have different lengths the source does not pad
the shorter one: `pd.DataFrame` raises
`ValueError("All arrays must be of the same length")` before anything is
written.  At ToC ids `{1, 2}` versus parsed ids `{1}`, the columns are
`["2"]` and `[]` and report generation fails. -/
theorem report_ragged_columns_error :
    ((([mkSection "1" 1, mkSection "2" 2].map (·.section_id)).dedup.filter
        (fun x => !(([mkSection "1" 1].map (·.section_id)).contains x))).insertionSort
          strLE) = ["2"] ∧
    ((([mkSection "1" 1].map (·.section_id)).dedup.filter
        (fun x => !(([mkSection "1" 1, mkSection "2" 2].map (·.section_id)).contains
          x))).insertionSort strLE) = [] ∧
    ReportGenerator.generate [mkSection "1" 1, mkSection "2" 2] [mkSection "1" 1] [] []
      = Except.error "All arrays must be of the same length" :=
  ⟨by decide, by decide, by decide⟩

/-! ### Claim C6 -/

/-- Claim C6 (amended): both table inventories are returned sorted
alphabetically by the case-insensitive key `str.lower` and deduplicated
exactly (case-sensitively — matches differing only in case are all kept);
when no `List of Tables` heading occurs in the 50-page scan window, the
declared inventory is the empty list and no error is raised.  `pi` is the
unspecified iteration order of the Python set, constrained only to be a
reordering. -/
theorem table_inventories (pi : List String → List String) (pdf : PDFLoader)
    (sections : List Section) (hpi : ∀ l : List String, List.Perm (pi l) l) :
    (TableParser.list_from_list_of_tables pi pdf).Sorted lowerLE ∧
    (TableParser.list_from_list_of_tables pi pdf).Nodup ∧
    (TableParser.count_in_body pi sections).Sorted lowerLE ∧
    (TableParser.count_in_body pi sections).Nodup ∧
    ((∀ i ∈ List.range (min 50 pdf.pages.length),
        hasListOfTables (pdf.page_text (Int.ofNat i)) = false) →
      TableParser.list_from_list_of_tables pi pdf = []) := by
  refine ⟨?_, ?_, ?_, ?_, ?_⟩
  · unfold TableParser.list_from_list_of_tables
    by_cases h : (TableParser.heading_pages pdf).isEmpty
    · rw [if_pos h]
      exact List.sorted_nil
    · rw [if_neg h]
      exact List.sorted_insertionSort lowerLE _
  · unfold TableParser.list_from_list_of_tables
    by_cases h : (TableParser.heading_pages pdf).isEmpty
    · rw [if_pos h]
      exact List.nodup_nil
    · rw [if_neg h]
      exact ((List.perm_insertionSort lowerLE _).nodup_iff).mpr
        (((hpi _).nodup_iff).mpr (List.nodup_dedup _))
  · exact List.sorted_insertionSort lowerLE _
  · exact ((List.perm_insertionSort lowerLE _).nodup_iff).mpr
      (((hpi _).nodup_iff).mpr (List.nodup_dedup _))
  · intro hno
    have hfind : (List.range (min 50 pdf.pages.length)).find?
        (fun i => hasListOfTables (pdf.page_text (Int.ofNat i))) = none := by
      rw [List.find?_eq_none]
      intro i hi
      simpa using hno i hi
    unfold TableParser.list_from_list_of_tables TableParser.heading_pages
    rw [hfind]
    rfl

/-- A one-page document with no `List of Tables` heading. -/
def pdfNoTables : PDFLoader := ⟨["no tables here"], []⟩

/-- A section whose resolved text mentions one table reference. -/
def secWithTable : Section :=
  { mkSection "1" 1 with text := some "see Table 2-1" }

/-- Witness for C6: the amended theorem at the identity set order, a
heading-free document and one section whose text mentions a table. -/
theorem table_inventories_witness :
    (TableParser.list_from_list_of_tables id pdfNoTables).Sorted lowerLE ∧
    (TableParser.list_from_list_of_tables id pdfNoTables).Nodup ∧
    (TableParser.count_in_body id [secWithTable]).Sorted lowerLE ∧
    (TableParser.count_in_body id [secWithTable]).Nodup ∧
    ((∀ i ∈ List.range (min 50 pdfNoTables.pages.length),
        hasListOfTables (pdfNoTables.page_text (Int.ofNat i)) = false) →
      TableParser.list_from_list_of_tables id pdfNoTables = []) :=
  table_inventories id pdfNoTables [secWithTable] (fun l => List.Perm.refl l)

/-- A one-page document whose page is a `List of Tables` listing containing
the same table reference in two spellings. -/
def pdfLot : PDFLoader := ⟨["List of Tables\nTable 1-1 x TABLE 1-1\n"], []⟩

/-- Counterexample for C6 as stated: the declared inventory keeps both
`Table 1-1` and `TABLE 1-1`, two distinct strings with the same lowercase
form — deduplication is exact, not case-insensitive. -/
theorem table_dedup_counterexample :
    TableParser.list_from_list_of_tables id pdfLot = ["Table 1-1", "TABLE 1-1"] ∧
    pyLower "Table 1-1" = pyLower "TABLE 1-1" ∧
    "Table 1-1" ≠ "TABLE 1-1" :=
  ⟨by decide, by decide, by decide⟩

/-! ### Claim C9 -/

/-- Claim C9 (confirmed): the three JSONL output files are a deterministic
function of the input document alone.  The only runtime nondeterminism in
the source is Python's set iteration order, modelled by the explicit
reordering `pi`; the ToC, spec and metadata file bytes are independent of
it, so two runs on the same document yield byte-identical JSONL files. -/
theorem jsonl_outputs_deterministic (hint : Option (List Int))
    (pi1 pi2 : List String → List String) (pdf : PDFLoader) (dt : String) :
    (USBPDParser.run hint pi1 pdf dt).toc_file
        = (USBPDParser.run hint pi2 pdf dt).toc_file ∧
    (USBPDParser.run hint pi1 pdf dt).spec_file
        = (USBPDParser.run hint pi2 pdf dt).spec_file ∧
    (USBPDParser.run hint pi1 pdf dt).meta_file
        = (USBPDParser.run hint pi2 pdf dt).meta_file := by
  by_cases h : TOCReader.read hint pdf dt = []
  · rw [run_toc_empty hint pi1 pdf dt h, run_toc_empty hint pi2 pdf dt h]
    exact ⟨rfl, rfl, rfl⟩
  · rw [run_toc_nonempty hint pi1 pdf dt h, run_toc_nonempty hint pi2 pdf dt h]
    exact ⟨rfl, rfl, rfl⟩

/-! ### Claim C10 -/

theorem generate_of_perm_ids (toc spec : List Section) (ta tb : List String)
    (hperm : List.Perm (spec.map (·.section_id)) (toc.map (·.section_id))) :
    ReportGenerator.generate toc spec ta tb
      = Except.ok
          { total_toc := toc.length
            total_parsed := spec.length
            ids_match := "Yes"
            total_toc_tables := ta.length
            total_body_tables := tb.length
            mismatches := [] } := by
  have hfin : (toc.map (·.section_id)).toFinset = (spec.map (·.section_id)).toFinset :=
    (List.toFinset_eq_of_perm _ _ hperm).symm
  have hA : ((toc.map (·.section_id)).dedup.filter
      (fun x => !((spec.map (·.section_id)).contains x))) = [] := by
    rw [List.filter_eq_nil_iff]
    intro a ha
    have ha3 : a ∈ spec.map (·.section_id) :=
      hperm.mem_iff.mpr (List.mem_dedup.mp ha)
    have hc : (spec.map (·.section_id)).contains a = true := List.elem_iff.mpr ha3
    simp only [hc]
    decide
  have hB : ((spec.map (·.section_id)).dedup.filter
      (fun x => !((toc.map (·.section_id)).contains x))) = [] := by
    rw [List.filter_eq_nil_iff]
    intro a ha
    have ha3 : a ∈ toc.map (·.section_id) :=
      hperm.mem_iff.mp (List.mem_dedup.mp ha)
    have hc : (toc.map (·.section_id)).contains a = true := List.elem_iff.mpr ha3
    simp only [hc]
    decide
  simp only [ReportGenerator.generate, hA, hB]
  simp [hfin, List.insertionSort]

/-- Claim C10 (confirmed): in every run that reaches report generation, the
resolved section list handed to the reporter is a reordering of the ToC
section list with only `text` changed, so the two id sets always coincide,
the report is generated without error, its "Sections Match (IDs)" value is
always "Yes", and both Mismatches columns are always empty. -/
theorem reconciliation_trivially_matches (hint : Option (List Int))
    (pi : List String → List String) (pdf : PDFLoader) (dt : String)
    (h : TOCReader.read hint pdf dt ≠ []) :
    ((TOCReader.read hint pdf dt).map (·.section_id)).toFinset
      = ((SpecParser.extract_sections_text pdf (TOCReader.read hint pdf dt)).map
          (·.section_id)).toFinset ∧
    ∃ rep : Report,
      (USBPDParser.run hint pi pdf dt).report = some (Except.ok rep) ∧
      rep.ids_match = "Yes" ∧ rep.mismatches = [] := by
  have hperm : List.Perm
      ((SpecParser.extract_sections_text pdf (TOCReader.read hint pdf dt)).map
        (·.section_id))
      ((TOCReader.read hint pdf dt).map (·.section_id)) := by
    rw [extract_map_section_id]
    exact (sortedByPage_perm _).map _
  refine ⟨(List.toFinset_eq_of_perm _ _ hperm).symm,
    ⟨{ total_toc := (TOCReader.read hint pdf dt).length,
       total_parsed :=
         (SpecParser.extract_sections_text pdf (TOCReader.read hint pdf dt)).length,
       ids_match := "Yes",
       total_toc_tables := (TableParser.list_from_list_of_tables pi pdf).length,
       total_body_tables := (TableParser.count_in_body pi
         (SpecParser.extract_sections_text pdf (TOCReader.read hint pdf dt))).length,
       mismatches := [] }, ?_, rfl, rfl⟩⟩
  rw [run_toc_nonempty hint pi pdf dt h]
  simp only [Option.some.injEq]
  exact generate_of_perm_ids _ _ _ _ hperm

/-- A one-page document whose outline yields the single section `3 Main`. -/
def pdfW10 : PDFLoader := ⟨["z"], [(1, "3 Main", 1)]⟩

/-- Witness for C10: the theorem at a concrete document with a non-empty
ToC, the hypothesis discharged by computation. -/
theorem reconciliation_trivially_matches_witness :
    ((TOCReader.read none pdfW10 "doc").map (·.section_id)).toFinset
      = ((SpecParser.extract_sections_text pdfW10 (TOCReader.read none pdfW10 "doc")).map
          (·.section_id)).toFinset ∧
    ∃ rep : Report,
      (USBPDParser.run none id pdfW10 "doc").report = some (Except.ok rep) ∧
      rep.ids_match = "Yes" ∧ rep.mismatches = [] :=
  reconciliation_trivially_matches none id pdfW10 "doc" (by decide)

end PdfParser
